import Mathlib

/-!
Verification of the MakeConfetti particle engine
(`src/app/client/components/ui/visual/ConfettiCannon.tsx`,
`src/app/client/components/ui/visual/WorkingFallingConfetti.tsx`,
`src/app/client/components/utils/generators/Debounce.tsx`).

Shallow embedding conventions:
* JS numbers that hold particle coordinates, speeds and sizes are embedded
  as `ℚ`; frame counts and object identities as `Nat`.
* Mutable JS objects are modelled by a heap `store : Nat → Particle`
  indexed by record identity, so aliasing of pooled records is observable.
* The particle pool (a JS array used with `push`/`pop`) is a list of record
  ids whose head is the end of the JS array (the top of the LIFO stack).
* Each `Math.random()` call site reads a named component of a `Draws`
  record (a value in `[0,1)` supplied by the host's RNG).
* A JS `TypeError` (dereferencing an `undefined` array hole) is an
  `Except.error`.
-/

/-- Shape kind of a confetti particle (`"circle" | "rectangle"` in the
source; the `shape` field is nullable, hence `Option Shape` below). -/
inductive Shape where
  | circle
  | rectangle
deriving DecidableEq, Repr

/-- The `Particle` record type of `ConfettiCannon.tsx` (lines 69-83). -/
structure Particle where
  x : ℚ
  y : ℚ
  size : ℚ
  speedX : ℚ
  speedY : ℚ
  accelerationX : ℚ
  accelerationY : ℚ
  color : Option String
  rotation : ℚ
  rotationSpeed : ℚ
  shape : Option Shape
  emoji : Option String
  lifetime : Nat
deriving DecidableEq, Repr

/-- `CreateEmptyParticle` (ConfettiCannon.tsx lines 86-102): the
zero-valued pooled record. -/
def CreateEmptyParticle : Particle :=
  { x := 0
    y := 0
    size := 10
    speedX := 0
    speedY := 0
    accelerationX := 0
    accelerationY := 0
    color := none
    rotation := 0
    rotationSpeed := 0
    shape := none
    emoji := none
    lifetime := 0 }

/-- Closed range `{min, max}` used by the preset table for speeds, sizes
and rotation speeds. -/
structure RRange where
  min : ℚ
  max : ℚ
deriving DecidableEq, Repr

/-- A confetti preset (the shape of one entry of `ConfettiPresets()`):
immutable emission configuration. -/
structure Preset where
  particleCount : Nat
  speedX : RRange
  size : RRange
  rotationSpeed : RRange
  gravity : ℚ
  wind : ℚ
  colors : List String
  emojiChance : ℚ
deriving DecidableEq, Repr

/-- The `emojis` list of `ConfettiCannon.tsx` (lines 22-67): 40 emoji
glyphs followed by the four stray strings present in the source. -/
def emojis : List String :=
  [ "🎉", "🥳", "✨", "🎊", "💖", "🌟", "🎈", "🍾", "🎁", "💫"
  , "🎉", "🥳", "✨", "🎊", "💖", "🌟", "🎈", "🍾", "🎁", "💫"
  , "🎉", "🥳", "✨", "🎊", "💖", "🌟", "🎈", "🍾", "🎁", "💫"
  , "🎉", "🥳", "✨", "🎊", "💖", "🌟", "🎈", "🍾", "🎁", "💫"
  , "astro", "bligg", "tilt", "d" ]

/-- Values produced by the `Math.random()` call sites inside
`createParticle`, one named field per call site, each in `[0,1)`. -/
structure Draws where
  emojiRand : ℚ
  spreadRand : ℚ
  speedXRand : ℚ
  speedYRand : ℚ
  sizeRand : ℚ
  accelXRand : ℚ
  colorRand : ℚ
  rotationRand : ℚ
  rotationSpeedRand : ℚ
  shapeRand : ℚ
  emojiPickRand : ℚ
deriving DecidableEq, Repr

/-- Component state read by `createParticle`: the selected preset and the
two display toggles. -/
structure CannonEnv where
  preset : Preset
  showEmojis : Bool
  showConfetti : Bool
deriving DecidableEq, Repr

/-- The field-assignment block of `createParticle`
(ConfettiCannon.tsx lines 134-178, identically WorkingFallingConfetti.tsx
lines 98-142).  Every field of the record is assigned, so the prior
contents of the mutated record do not matter and the result is a full
record literal.  JS `array[i]` with an out-of-range index yields
`undefined`, embedded as the `Option` result of `List.get?`. -/
def configureParticle (burstX burstY : ℚ) (env : CannonEnv) (d : Draws) : Particle :=
  let preset := env.preset
  let isEmoji : Bool := env.showEmojis && decide (d.emojiRand < preset.emojiChance)
  let spreadFactorX : ℚ := if d.spreadRand < 1/2 then -1 else 1
  let speedX : ℚ :=
    (d.speedXRand * (preset.speedX.max - preset.speedX.min) + preset.speedX.min)
      * spreadFactorX + preset.wind
  let speedY : ℚ := if isEmoji then d.speedYRand * (-15) - 10 else d.speedYRand * (-15) - 10
  { x := burstX
    y := burstY
    size := if isEmoji then d.sizeRand * 20 + 20
            else d.sizeRand * (preset.size.max - preset.size.min) + preset.size.min
    speedX := speedX
    speedY := speedY
    accelerationX := (d.accelXRand - 1/2) * (1/5)
    accelerationY := preset.gravity
    color := if isEmoji || !env.showConfetti then none
             else preset.colors.get? (d.colorRand * (preset.colors.length : ℚ)).floor.toNat
    rotation := d.rotationRand * 360
    rotationSpeed :=
      d.rotationSpeedRand * (preset.rotationSpeed.max - preset.rotationSpeed.min)
        + preset.rotationSpeed.min
    shape := if isEmoji || !env.showConfetti then none
             else if d.shapeRand > 1/2 then some Shape.circle else some Shape.rectangle
    emoji := if isEmoji then emojis.get? (d.emojiPickRand * (emojis.length : ℚ)).floor.toNat
             else none
    lifetime := 0 }

/-- Point-update of the record heap. -/
def updStore (st : Nat → Particle) (i : Nat) (p : Particle) : Nat → Particle :=
  fun j => if j = i then p else st j

/-- The mutable refs of one mounted `Confetti` component:
the record heap, the particle pool (`particlesPoolForSpawner`,
head = end of the JS array = top of the LIFO stack), a fresh-identity
counter, `particlesRef.current` (array slots; `none` is a JS hole),
`animationIdRef.current`, `timeoutIdRef.current`, and whether the canvas
surface currently has content drawn on it. -/
structure SysState where
  store : Nat → Particle
  pool : List Nat
  nextId : Nat
  particles : List (Option Nat)
  animationId : Option Nat
  timeoutId : Option Nat
  surfaceDirty : Bool

/-- JS truthiness of a nullable numeric handle (`if (ref.current)`):
`null` and `0` are falsy. -/
def jsTruthy : Option Nat → Bool
  | none => false
  | some n => !(n == 0)

/-- `createParticle` of `ConfettiCannon.tsx` (lines 124-186): pop from the
pool (allocating a fresh zero-valued record when the pool is empty); if
the popped record has non-zero `x` and `y`, return it unmodified (and do
not push it back); otherwise configure every field and push the record
back onto the pool before returning it.  Returns the identity of the
returned record. -/
def createParticleCannon (burstX burstY : ℚ) (env : CannonEnv) (d : Draws)
    (s : SysState) : Nat × SysState :=
  match s.pool with
  | pid :: rest =>
      let p := s.store pid
      if p.x ≠ 0 ∧ p.y ≠ 0 then
        (pid, { s with pool := rest })
      else
        (pid, { s with store := updStore s.store pid (configureParticle burstX burstY env d)
                       pool := pid :: rest })
  | [] =>
      let pid := s.nextId
      (pid, { s with store := updStore s.store pid (configureParticle burstX burstY env d)
                     pool := [pid]
                     nextId := pid + 1 })

/-- `createParticle` of `WorkingFallingConfetti.tsx` (lines 86-145): same
as the cannon variant except the configured record is not pushed back
onto the pool. -/
def createParticleFalling (burstX burstY : ℚ) (env : CannonEnv) (d : Draws)
    (s : SysState) : Nat × SysState :=
  match s.pool with
  | pid :: rest =>
      let p := s.store pid
      if p.x ≠ 0 ∧ p.y ≠ 0 then
        (pid, { s with pool := rest })
      else
        (pid, { s with store := updStore s.store pid (configureParticle burstX burstY env d)
                       pool := rest })
  | [] =>
      let pid := s.nextId
      (pid, { s with store := updStore s.store pid (configureParticle burstX burstY env d)
                     nextId := pid + 1 })

/-- The physics integration of one loop iteration of `animateConfetti` in
`ConfettiCannon.tsx` (lines 213-227): angle-based speed offsets, position
update, gravity accumulation, lifetime increment.  `offX`/`offY` stand for
the source's `Math.cos(radians) * speedMagnitude` and
`Math.sin(radians) * speedMagnitude`; at the default `angle = 0` they are
`5` and `0` and are bypassed by the angle tests anyway. -/
def integrateCannon (angle : ℚ) (rX rY : Bool) (offX offY : ℚ) (p : Particle) : Particle :=
  let finalXSpeed := if angle = 0 ∨ angle = 180 then p.speedX else p.speedX + offX
  let finalYSpeed := if angle = 90 ∨ angle = 270 then p.speedY else p.speedY + offY
  { p with
    y := p.y + (if rY then -finalYSpeed else finalYSpeed)
    x := p.x + (if rX then -finalXSpeed else finalXSpeed)
    speedY := p.speedY + p.accelerationY
    lifetime := p.lifetime + 1 }

/-- The physics integration of one loop iteration of `animateConfetti` in
`WorkingFallingConfetti.tsx` (lines 161-165). -/
def integrateFalling (p : Particle) : Particle :=
  { p with
    x := p.x + p.speedX
    y := p.y + p.speedY
    speedY := p.speedY + p.accelerationY
    lifetime := p.lifetime + 1 }

/-- The alpha computed by `drawParticle` (ConfettiCannon.tsx line 360):
`1 - lifetime / maxLifetime`. -/
def drawAlpha (maxLifetime : Nat) (p : Particle) : ℚ :=
  1 - (p.lifetime : ℚ) / (maxLifetime : ℚ)

/-- The side effect of `drawParticle` on the particle record
(ConfettiCannon.tsx line 376, `rotateOnZ` left at its default `true`):
the rotation angle advances by `rotationSpeed`. -/
def drawAdvance (p : Particle) : Particle :=
  { p with rotation := p.rotation + p.rotationSpeed }

/-- Result of one `animateConfetti` tick: the updated record heap, the
surviving slots (`aliveParticles`), and the snapshots passed to
`drawParticle`, in draw order. -/
structure TickResult where
  store : Nat → Particle
  alive : List Nat
  draws : List Particle

/-- The particle loop of one `animateConfetti` tick of `ConfettiCannon.tsx`
(lines 210-234) on a hole-free slot array, as a heap transformer over the
list of record identities: each iteration integrates the record currently
in the heap (so an identity occurring twice is integrated twice), then
keeps and draws it iff the incremented lifetime is below `maxLifetime`. -/
def runTickCannon (maxLifetime : Nat) (angle : ℚ) (rX rY : Bool) (offX offY : ℚ) :
    (Nat → Particle) → List Nat → TickResult
  | st, [] => ⟨st, [], []⟩
  | st, pid :: rest =>
      let p := integrateCannon angle rX rY offX offY (st pid)
      if p.lifetime < maxLifetime then
        let r := runTickCannon maxLifetime angle rX rY offX offY
                   (updStore st pid (drawAdvance p)) rest
        ⟨r.store, pid :: r.alive, p :: r.draws⟩
      else
        let r := runTickCannon maxLifetime angle rX rY offX offY
                   (updStore st pid p) rest
        ⟨r.store, r.alive, r.draws⟩

/-- The same loop over the raw slot array `particlesRef.current`: a `none`
slot is a JS array hole, whose dereference (`particle.speedX` on
`undefined`) raises a `TypeError`, embedded as `Except.error ()`.  Slots
before the hole have already been mutated when the error is raised. -/
def tickSlots (maxLifetime : Nat) (angle : ℚ) (rX rY : Bool) (offX offY : ℚ) :
    (Nat → Particle) → List (Option Nat) → Except Unit TickResult
  | st, [] => .ok ⟨st, [], []⟩
  | _, none :: _ => .error ()
  | st, some pid :: rest =>
      let p := integrateCannon angle rX rY offX offY (st pid)
      if p.lifetime < maxLifetime then
        match tickSlots maxLifetime angle rX rY offX offY
                (updStore st pid (drawAdvance p)) rest with
        | .error e => .error e
        | .ok r => .ok ⟨r.store, pid :: r.alive, p :: r.draws⟩
      else
        match tickSlots maxLifetime angle rX rY offX offY
                (updStore st pid p) rest with
        | .error e => .error e
        | .ok r => .ok r

/-- `n` successive `animateConfetti` ticks (each tick replaces the active
set by its survivors, as the source does via `particlesRef.current =
aliveParticles` and the `requestAnimationFrame` recursion). -/
def runTickCannonN (maxLifetime : Nat) (angle : ℚ) (rX rY : Bool) (offX offY : ℚ) :
    Nat → (Nat → Particle) → List Nat → (Nat → Particle) × List Nat
  | 0, st, act => (st, act)
  | n + 1, st, act =>
      let r := runTickCannon maxLifetime angle rX rY offX offY st act
      runTickCannonN maxLifetime angle rX rY offX offY n r.store r.alive

/-- `stopConfetti` (ConfettiCannon.tsx lines 481-501): cancel the pending
animation frame and the safety timeout when their handles are truthy,
truncate the active array, and clear the canvas when both the canvas and
its 2d context are available. -/
def stopConfetti (hasCanvas hasCtx : Bool) (s : SysState) : SysState :=
  let s1 := if jsTruthy s.animationId then { s with animationId := none } else s
  let s2 := if jsTruthy s1.timeoutId then { s1 with timeoutId := none } else s1
  let s3 := { s2 with particles := [] }
  if hasCanvas && hasCtx then { s3 with surfaceDirty := false } else s3

/-- Allocation of one fresh zero-valued pooled record
(`particlesPoolForSpawner.push(CreateEmptyParticle())`). -/
def allocEmpty (s : SysState) : SysState :=
  { s with store := updStore s.store s.nextId CreateEmptyParticle
           pool := s.nextId :: s.pool
           nextId := s.nextId + 1 }

/-- The pool-growing `while` loop of `initializeParticles`
(ConfettiCannon.tsx lines 428-430), with explicit fuel: each iteration
pushes one empty record, so `total` iterations always suffice. -/
def growPoolAux : Nat → Nat → SysState → SysState
  | 0, _, s => s
  | fuel + 1, total, s =>
      if s.pool.length < total then growPoolAux fuel total (allocEmpty s) else s

/-- Grow the pool until it holds at least `total` records. -/
def growPool (total : Nat) (s : SysState) : SysState :=
  growPoolAux total total s

/-- The inner `for` loop of `initializeParticles` (lines 449-455): create
`count` particles at the burst position of one anchor.  The source passes
`burstX || Math.random() * width` and `burstY || 0` (JS `||` falls back on
a zero coordinate); `fb idx` is the `Math.random()` of the fallback, `ds
idx` the draws of the `idx`-th `createParticle` call of this burst.
Returns the updated state, the created slots in order, and the next call
index. -/
def spawnLoop (env : CannonEnv) (ds : Nat → Draws) (fb : Nat → ℚ)
    (burstX burstY width : ℚ) :
    Nat → Nat → SysState → SysState × List Nat × Nat
  | 0, idx, s => (s, [], idx)
  | count + 1, idx, s =>
      let arg1 := if burstX ≠ 0 then burstX else fb idx * width
      let arg2 := if burstY ≠ 0 then burstY else 0
      let r1 := createParticleCannon arg1 arg2 env (ds idx) s
      let r2 := spawnLoop env ds fb burstX burstY width count (idx + 1) r1.2
      (r2.1, r1.1 :: r2.2.1, r2.2.2)

/-- The bounding rectangle of one resolved spawner element
(`getBoundingClientRect()`). -/
structure Anchor where
  left : ℚ
  top : ℚ
  width : ℚ
  height : ℚ
deriving DecidableEq, Repr

/-- The `spawnerIds.forEach` loop of `initializeParticles` (lines
439-457): a `none` anchor is a spawner id for which
`document.getElementById` returned `null` — it is skipped and fills no
slots.  A present anchor spawns `preset.particleCount` particles at its
scroll-adjusted centre. -/
def spawnAnchors (env : CannonEnv) (ds : Nat → Draws) (fb : Nat → ℚ)
    (scrollX scrollY : ℚ) :
    List (Option Anchor) → Nat → SysState → SysState × List Nat × Nat
  | [], idx, s => (s, [], idx)
  | none :: rest, idx, s => spawnAnchors env ds fb scrollX scrollY rest idx s
  | some a :: rest, idx, s =>
      let burstX := a.left + a.width / 2 + scrollX
      let burstY := a.top + a.height / 2 + scrollY
      let r1 := spawnLoop env ds fb burstX burstY a.width env.preset.particleCount idx s
      let r2 := spawnAnchors env ds fb scrollX scrollY rest r1.2.2 r1.1
      (r2.1, r1.2.1 ++ r2.2.1, r2.2.2)

/-- `initializeParticles` (ConfettiCannon.tsx lines 421-466): stop any
running burst, pre-grow the pool to `particleCount * spawnerIds.length`,
preallocate `particleCount * (spawnerIds.length || 1)` array slots, fill a
prefix of them by spawning from each present anchor, and leave the
remaining slots as JS holes (`none`). -/
def initializeParticles (env : CannonEnv) (anchors : List (Option Anchor))
    (ds : Nat → Draws) (fb : Nat → ℚ) (scrollX scrollY : ℚ)
    (hasCanvas hasCtx : Bool) (s : SysState) : SysState :=
  let s0 := stopConfetti hasCanvas hasCtx s
  let total := env.preset.particleCount * anchors.length
  let s1 := growPool total s0
  let arrLen := env.preset.particleCount *
    (if anchors.length = 0 then 1 else anchors.length)
  let r := spawnAnchors env ds fb scrollX scrollY anchors 0 s1
  { r.1 with particles := r.2.1.map some ++ List.replicate (arrLen - r.2.1.length) none }

/-- One full `animateConfetti` call of `ConfettiCannon.tsx` (lines
187-247) as a state transformer: bail out when the canvas or its context
is missing, run the particle loop over the slot array (propagating the
`TypeError` raised on a hole), replace the active set by the survivors,
and either schedule the next frame (when survivors remain) or invoke
`stopConfetti`.  The surface ends up non-empty exactly when some particle
was drawn. -/
def animateConfetti (maxLifetime : Nat) (angle : ℚ) (rX rY : Bool) (offX offY : ℚ)
    (hasCanvas hasCtx : Bool) (frameId : Nat) (s : SysState) : Except Unit SysState :=
  if hasCanvas = false then .ok s
  else if hasCtx = false then .ok s
  else
    match tickSlots maxLifetime angle rX rY offX offY s.store s.particles with
    | .error e => .error e
    | .ok r =>
        let s2 := { s with store := r.store
                           particles := r.alive.map some
                           surfaceDirty := !r.alive.isEmpty }
        if r.alive.isEmpty then .ok (stopConfetti hasCanvas hasCtx s2)
        else .ok { s2 with animationId := some frameId }

/-- `startCannonAtFindMe` (ConfettiCannon.tsx lines 468-479): initialize
the particles, run the first animation tick synchronously (the initial
call uses `angle = 0`, so the cosine/sine offsets are `5` and `0`), then
clear any pending safety timeout and arm a fresh one (`tid` is the handle
returned by `setTimeout`). -/
def startCannonAtFindMe (maxLifetime : Nat) (env : CannonEnv)
    (anchors : List (Option Anchor)) (ds : Nat → Draws) (fb : Nat → ℚ)
    (scrollX scrollY : ℚ) (hasCanvas hasCtx : Bool) (frameId tid : Nat)
    (isClient : Bool) (s : SysState) : Except Unit SysState :=
  if isClient = false then .ok s
  else
    let s1 := initializeParticles env anchors ds fb scrollX scrollY hasCanvas hasCtx s
    match animateConfetti maxLifetime 0 false false 5 0 hasCanvas hasCtx frameId s1 with
    | .error e => .error e
    | .ok s2 => .ok { s2 with timeoutId := some tid }

/-- `roundToNearestSize` (ConfettiCannon.tsx lines 250-252):
`Math.round(size / increment) * increment`.  JS `Math.round` rounds
half-up (towards `+∞`), which is exactly Mathlib's `round` on `ℚ`
(`round x = ⌊x + 1/2⌋`). -/
def roundToNearestSize (size increment : ℚ) : ℚ :=
  (round (size / increment) : ℤ) * increment

/-- Association-list lookup used to model the plain-object caches
(`emojiCache[cacheKey]` / `shapeCache[cacheKey]`). -/
def findEntry {α : Type} [DecidableEq α] : List (α × Nat) → α → Option Nat
  | [], _ => none
  | (k, v) :: rest, key => if key = k then some v else findEntry rest key

/-- The two module-level bitmap caches of `ConfettiCannon.tsx` (lines
255-256).  A cached offscreen canvas is identified by the `Nat` returned
by the rasterization counter `nextSurface`: two equal ids are the
identical surface object.  The source keys are the strings
`emoji + "-" + roundedSize` and `shape + "-" + roundedSize + "-" + color`;
they are modelled by the tuples the strings encode. -/
structure RenderCache where
  emojiEntries : List ((String × ℚ) × Nat)
  shapeEntries : List ((String × ℚ × String) × Nat)
  nextSurface : Nat
deriving DecidableEq, Repr

/-- `getCachedEmoji` (ConfettiCannon.tsx lines 259-292): bucket the size,
return the cached surface on a hit; on a miss, rasterize a fresh offscreen
canvas and cache it — unless the offscreen 2d context is unavailable, in
which case return `null` and cache nothing. -/
def getCachedEmoji (emoji : String) (size : ℚ) (increment : ℚ) (hasCtx : Bool)
    (c : RenderCache) : Option Nat × RenderCache :=
  let roundedSize := roundToNearestSize size increment
  let key := (emoji, roundedSize)
  match findEntry c.emojiEntries key with
  | some sid => (some sid, c)
  | none =>
      if hasCtx = false then (none, c)
      else
        (some c.nextSurface,
         { c with emojiEntries := (key, c.nextSurface) :: c.emojiEntries
                  nextSurface := c.nextSurface + 1 })

/-- `getCachedShape` (ConfettiCannon.tsx lines 295-339): same contract as
`getCachedEmoji` with the key extended by the fill color. -/
def getCachedShape (shape : String) (size : ℚ) (color : String) (increment : ℚ)
    (hasCtx : Bool) (c : RenderCache) : Option Nat × RenderCache :=
  let roundedSize := roundToNearestSize size increment
  let key := (shape, roundedSize, color)
  match findEntry c.shapeEntries key with
  | some sid => (some sid, c)
  | none =>
      if hasCtx = false then (none, c)
      else
        (some c.nextSurface,
         { c with shapeEntries := (key, c.nextSurface) :: c.shapeEntries
                  nextSurface := c.nextSurface + 1 })

/-- `Debounce` (Debounce.tsx lines 1-11), as timed-trace semantics.  The
state is the deadline of the pending `setTimeout`, if any.  Each
invocation of the debounced closure at absolute time `t` first clears a
pending timer — unless that timer already fired, which is the case exactly
when its deadline is at or before `t` — and then arms a new timer for
`t + delay`.  After the last invocation the remaining pending timer fires
at its deadline.  The result is the list of times at which the wrapped
`func` actually runs. -/
def runDebounce (delay : Nat) : Option Nat → List Nat → List Nat
  | pending, [] =>
      (match pending with
       | some deadline => [deadline]
       | none => [])
  | pending, t :: rest =>
      (match pending with
       | some deadline =>
           (if deadline ≤ t then [deadline] else [])
             ++ runDebounce delay (some (t + delay)) rest
       | none => runDebounce delay (some (t + delay)) rest)

/-- The visual-kind invariant claimed by the spec: a particle shows a
shape with a color, or an emoji, never both and never neither. -/
def visualOk (p : Particle) : Prop :=
  (p.shape ≠ none ∧ p.color ≠ none ∧ p.emoji = none) ∨
  (p.emoji ≠ none ∧ p.shape = none ∧ p.color = none)

instance (p : Particle) : Decidable (visualOk p) := by
  unfold visualOk
  infer_instance

/-- A JS array index `Math.floor(r * length)` with `r ∈ [0,1)` is in
range. -/
theorem floor_index_lt (r : ℚ) (n : Nat) (h0 : 0 ≤ r) (h1 : r < 1) (hn : 0 < n) :
    (r * (n : ℚ)).floor.toNat < n := by
  have hnq : (0:ℚ) < (n : ℚ) := by exact_mod_cast hn
  have hnn : (0:ℚ) ≤ r * (n : ℚ) := mul_nonneg h0 (le_of_lt hnq)
  have hlt : r * (n:ℚ) < (n:ℚ) := by
    calc r * (n:ℚ) < 1 * (n:ℚ) := mul_lt_mul_of_pos_right h1 hnq
    _ = (n:ℚ) := one_mul _
  have hfl : (r * (n:ℚ)).floor < ((n : ℤ) : ℤ) := Int.floor_lt.mpr (by exact_mod_cast hlt)
  have hfn : 0 ≤ (r * (n:ℚ)).floor := Int.floor_nonneg.mpr hnn
  omega

theorem updStore_self (st : Nat → Particle) (i : Nat) (p : Particle) :
    updStore st i p i = p := by
  simp [updStore]

theorem updStore_ne (st : Nat → Particle) (i j : Nat) (p : Particle) (h : j ≠ i) :
    updStore st i p j = st j := by
  simp [updStore, h]

theorem integrateCannon_lifetime (a : ℚ) (rx ry : Bool) (ox oy : ℚ) (p : Particle) :
    (integrateCannon a rx ry ox oy p).lifetime = p.lifetime + 1 := rfl

theorem drawAdvance_lifetime (p : Particle) : (drawAdvance p).lifetime = p.lifetime := rfl

/-- Each tick adds to a record's lifetime exactly the number of slots of
the active array that reference it. -/
theorem runTickCannon_store_lifetime (m : Nat) (a : ℚ) (rx ry : Bool) (ox oy : ℚ)
    (st : Nat → Particle) (act : List Nat) (i : Nat) :
    ((runTickCannon m a rx ry ox oy st act).store i).lifetime
      = (st i).lifetime + act.count i := by
  induction act generalizing st with
  | nil => simp [runTickCannon]
  | cons pid rest ih =>
      by_cases hs : (integrateCannon a rx ry ox oy (st pid)).lifetime < m
      · simp only [runTickCannon, if_pos hs]
        rw [ih]
        by_cases hip : i = pid
        · subst hip
          rw [updStore_self, drawAdvance_lifetime, integrateCannon_lifetime,
            List.count_cons_self]
          omega
        · rw [updStore_ne _ _ _ _ hip, List.count_cons_of_ne hip]
      · simp only [runTickCannon, if_neg hs]
        rw [ih]
        by_cases hip : i = pid
        · subst hip
          rw [updStore_self, integrateCannon_lifetime, List.count_cons_self]
          omega
        · rw [updStore_ne _ _ _ _ hip, List.count_cons_of_ne hip]

/-- Survivor slots come from the input active array. -/
theorem runTickCannon_alive_subset (m : Nat) (a : ℚ) (rx ry : Bool) (ox oy : ℚ)
    (st : Nat → Particle) (act : List Nat) (i : Nat)
    (h : i ∈ (runTickCannon m a rx ry ox oy st act).alive) : i ∈ act := by
  induction act generalizing st with
  | nil => simp [runTickCannon] at h
  | cons pid rest ih =>
      by_cases hs : (integrateCannon a rx ry ox oy (st pid)).lifetime < m
      · simp only [runTickCannon, if_pos hs, List.mem_cons] at h
        rcases h with h | h
        · exact List.mem_cons.mpr (Or.inl h)
        · exact List.mem_cons.mpr (Or.inr (ih _ h))
      · simp only [runTickCannon, if_neg hs] at h
        exact List.mem_cons.mpr (Or.inr (ih _ h))

/-- A record kept for the next tick had, at tick entry, a lifetime at
least two below `maxLifetime` once incremented. -/
theorem runTickCannon_alive_bound (m : Nat) (a : ℚ) (rx ry : Bool) (ox oy : ℚ)
    (st : Nat → Particle) (act : List Nat) (i : Nat)
    (h : i ∈ (runTickCannon m a rx ry ox oy st act).alive) :
    (st i).lifetime + 1 < m := by
  induction act generalizing st with
  | nil => simp [runTickCannon] at h
  | cons pid rest ih =>
      by_cases hs : (integrateCannon a rx ry ox oy (st pid)).lifetime < m
      · simp only [runTickCannon, if_pos hs, List.mem_cons] at h
        rcases h with h | h
        · subst h
          rw [integrateCannon_lifetime] at hs
          exact hs
        · have hb := ih (updStore st pid (drawAdvance (integrateCannon a rx ry ox oy (st pid)))) h
          by_cases hip : i = pid
          · subst hip
            rw [updStore_self] at hb
            rw [drawAdvance_lifetime, integrateCannon_lifetime] at hb
            omega
          · rwa [updStore_ne _ _ _ _ hip] at hb
      · simp only [runTickCannon, if_neg hs] at h
        have hb := ih (updStore st pid (integrateCannon a rx ry ox oy (st pid))) h
        by_cases hip : i = pid
        · subst hip
          rw [updStore_self, integrateCannon_lifetime] at hb
          omega
        · rwa [updStore_ne _ _ _ _ hip] at hb

/-- Every snapshot handed to `drawParticle` has a lifetime strictly below
`maxLifetime`. -/
theorem runTickCannon_draws_lt (m : Nat) (a : ℚ) (rx ry : Bool) (ox oy : ℚ)
    (st : Nat → Particle) (act : List Nat) (p : Particle)
    (h : p ∈ (runTickCannon m a rx ry ox oy st act).draws) : p.lifetime < m := by
  induction act generalizing st with
  | nil => simp [runTickCannon] at h
  | cons pid rest ih =>
      by_cases hs : (integrateCannon a rx ry ox oy (st pid)).lifetime < m
      · simp only [runTickCannon, if_pos hs, List.mem_cons] at h
        rcases h with h | h
        · subst h; exact hs
        · exact ih _ h
      · simp only [runTickCannon, if_neg hs] at h
        exact ih _ h

/-- Backward direction of the survival characterization on a
duplicate-free active array. -/
theorem runTickCannon_alive_of_lt (m : Nat) (a : ℚ) (rx ry : Bool) (ox oy : ℚ)
    (act : List Nat) (i : Nat) :
    ∀ st : Nat → Particle, act.Nodup → i ∈ act → (st i).lifetime + 1 < m →
      i ∈ (runTickCannon m a rx ry ox oy st act).alive := by
  induction act with
  | nil => intro st _ hmem _; simp at hmem
  | cons pid rest ih =>
      intro st hnd hmem hlt
      have hnd' : rest.Nodup := (List.nodup_cons.mp hnd).2
      have hpid : pid ∉ rest := (List.nodup_cons.mp hnd).1
      rcases List.mem_cons.mp hmem with hip | hmem'
      · subst hip
        have hs : (integrateCannon a rx ry ox oy (st i)).lifetime < m := by
          rw [integrateCannon_lifetime]; exact hlt
        simp [runTickCannon, hs]
      · have hip : i ≠ pid := fun hc => hpid (hc ▸ hmem')
        by_cases hs : (integrateCannon a rx ry ox oy (st pid)).lifetime < m
        · simp only [runTickCannon, if_pos hs, List.mem_cons]
          refine Or.inr (ih _ hnd' hmem' ?_)
          rwa [updStore_ne _ _ _ _ hip]
        · simp only [runTickCannon, if_neg hs]
          refine ih _ hnd' hmem' ?_
          rwa [updStore_ne _ _ _ _ hip]

/-- On a duplicate-free active array, a slot survives the tick iff its
record's incremented lifetime is below `maxLifetime`. -/
theorem runTickCannon_alive_iff (m : Nat) (a : ℚ) (rx ry : Bool) (ox oy : ℚ)
    (st : Nat → Particle) (act : List Nat) (hnd : act.Nodup) (i : Nat) :
    i ∈ (runTickCannon m a rx ry ox oy st act).alive ↔
      i ∈ act ∧ (st i).lifetime + 1 < m := by
  constructor
  · intro h
    exact ⟨runTickCannon_alive_subset m a rx ry ox oy st act i h,
           runTickCannon_alive_bound m a rx ry ox oy st act i h⟩
  · rintro ⟨hmem, hlt⟩
    exact runTickCannon_alive_of_lt m a rx ry ox oy act i st hnd hmem hlt

/-- A hole-free slot array behaves like the plain identity list: the loop
raises no `TypeError` and computes the pure tick. -/
theorem tickSlots_map_some (m : Nat) (a : ℚ) (rx ry : Bool) (ox oy : ℚ)
    (act : List Nat) :
    ∀ st : Nat → Particle,
      tickSlots m a rx ry ox oy st (act.map some)
        = .ok (runTickCannon m a rx ry ox oy st act) := by
  induction act with
  | nil => intro st; rfl
  | cons pid rest ih =>
      intro st
      by_cases hs : (integrateCannon a rx ry ox oy (st pid)).lifetime < m <;>
        simp only [List.map_cons, tickSlots, runTickCannon, if_pos, if_neg, hs,
          ite_true, ite_false, ih]

theorem runTickCannonN_subset (m : Nat) (a : ℚ) (rx ry : Bool) (ox oy : ℚ) :
    ∀ (n : Nat) (st : Nat → Particle) (act : List Nat) (i : Nat),
      i ∈ (runTickCannonN m a rx ry ox oy n st act).2 → i ∈ act := by
  intro n
  induction n with
  | zero => intro st act i h; exact h
  | succ n ih =>
      intro st act i h
      exact runTickCannon_alive_subset m a rx ry ox oy st act i (ih _ _ _ h)

theorem one_le_count_of_mem (i : Nat) (act : List Nat) (h : i ∈ act) :
    1 ≤ act.count i :=
  List.count_pos_iff.mpr h

/-- A record still active after `n + 1` ticks entered the run with
lifetime at most `maxLifetime - n - 2`. -/
theorem runTickCannonN_bound (m : Nat) (a : ℚ) (rx ry : Bool) (ox oy : ℚ) :
    ∀ (n : Nat) (st : Nat → Particle) (act : List Nat) (i : Nat),
      i ∈ (runTickCannonN m a rx ry ox oy (n + 1) st act).2 →
        (st i).lifetime + n + 2 ≤ m := by
  intro n
  induction n with
  | zero =>
      intro st act i h
      have hb := runTickCannon_alive_bound m a rx ry ox oy st act i h
      omega
  | succ n ih =>
      intro st act i h
      have h' : i ∈ (runTickCannonN m a rx ry ox oy (n + 1)
          (runTickCannon m a rx ry ox oy st act).store
          (runTickCannon m a rx ry ox oy st act).alive).2 := h
      have hb := ih _ _ _ h'
      have hmem : i ∈ (runTickCannon m a rx ry ox oy st act).alive :=
        runTickCannonN_subset m a rx ry ox oy _ _ _ _ h'
      have hact : i ∈ act := runTickCannon_alive_subset m a rx ry ox oy st act i hmem
      have hcnt := one_le_count_of_mem i act hact
      have hst := runTickCannon_store_lifetime m a rx ry ox oy st act i
      omega

/-- After `maxLifetime` ticks (with `maxLifetime > 0`) the active set is
empty: lifetime-based culling retires every particle within the bound. -/
theorem runTickCannonN_expiry (m : Nat) (a : ℚ) (rx ry : Bool) (ox oy : ℚ)
    (st : Nat → Particle) (act : List Nat) (hm : 0 < m) :
    (runTickCannonN m a rx ry ox oy m st act).2 = [] := by
  rw [List.eq_nil_iff_forall_not_mem]
  intro i hi
  obtain ⟨n, rfl⟩ : ∃ n, m = n + 1 := ⟨m - 1, by omega⟩
  have hb := runTickCannonN_bound (n + 1) a rx ry ox oy n st act i hi
  omega

theorem configureParticle_x (bx cy : ℚ) (env : CannonEnv) (d : Draws) :
    (configureParticle bx cy env d).x = bx := rfl

theorem configureParticle_y (bx cy : ℚ) (env : CannonEnv) (d : Draws) :
    (configureParticle bx cy env d).y = cy := rfl

theorem configureParticle_lifetime (bx cy : ℚ) (env : CannonEnv) (d : Draws) :
    (configureParticle bx cy env d).lifetime = 0 := rfl

/-- Concrete preset used by the closed evaluation theorems (any well-formed
preset works; the source's preset table lives outside the verified core). -/
def presetFx : Preset :=
  { particleCount := 20
    speedX := ⟨2, 5⟩
    size := ⟨5, 10⟩
    rotationSpeed := ⟨1, 3⟩
    gravity := 1/2
    wind := 1/4
    colors := ["#ff0000", "#00ff00", "#0000ff"]
    emojiChance := 3/10 }

/-- Concrete `Math.random()` outcomes used by the closed evaluation
theorems; all in `[0,1)`. -/
def drawsFx : Draws :=
  { emojiRand := 1/2
    spreadRand := 1/4
    speedXRand := 1/3
    speedYRand := 1/5
    sizeRand := 1/2
    accelXRand := 3/4
    colorRand := 1/3
    rotationRand := 1/8
    rotationSpeedRand := 1/2
    shapeRand := 3/4
    emojiPickRand := 1/7 }

/-- Component environment with both display toggles on. -/
def envFx : CannonEnv := { preset := presetFx, showEmojis := true, showConfetti := true }

/-- A pooled record left over from an earlier burst: non-origin position,
stale visual fields, non-zero elapsed lifetime. -/
def staleParticleC1 : Particle :=
  { x := 5
    y := 6
    size := 12
    speedX := 1
    speedY := -2
    accelerationX := 0
    accelerationY := 1/2
    color := some "#123456"
    rotation := 30
    rotationSpeed := 1
    shape := some Shape.circle
    emoji := none
    lifetime := 7 }

/-- Component state whose pool holds the single stale record `0`. -/
def stateC1 : SysState :=
  { store := fun _ => staleParticleC1
    pool := [0]
    nextId := 1
    particles := []
    animationId := none
    timeoutId := none
    surfaceDirty := false }

/-- C1: re-acquiring the last released record does return the same record
identity (the pool is LIFO), but `createParticle` returns a recycled
record whose position is non-origin entirely unmodified: its lifetime
stays `7` instead of being reset to `0`, its stale color/shape survive,
and the requested burst position `(100, 200)` is ignored.  This refutes
the claim's requirement that a stale non-zero position must not suppress
reconfiguration. -/
theorem C1_stale_record_not_reconfigured :
    (createParticleCannon 100 200 envFx drawsFx stateC1).1 = 0 ∧
    (createParticleCannon 100 200 envFx drawsFx stateC1).2.store 0 = staleParticleC1 ∧
    ¬ ((createParticleCannon 100 200 envFx drawsFx stateC1).2.store 0).lifetime = 0 ∧
    ¬ ((createParticleCannon 100 200 envFx drawsFx stateC1).2.store 0).x = 100 := by
  norm_num [createParticleCannon, stateC1, staleParticleC1]

/-- A mid-flight particle with non-zero tracked horizontal acceleration. -/
def particleC5 : Particle :=
  { x := 40
    y := 50
    size := 8
    speedX := 3
    speedY := 2
    accelerationX := 1/10
    accelerationY := 1/2
    color := some "#ff0000"
    rotation := 45
    rotationSpeed := 2
    shape := some Shape.rectangle
    emoji := none
    lifetime := 12 }

/-- C5: the tick integrates position by velocity and accumulates gravity
into `speedY`, but the tracked `accelerationX` is never applied to
`speedX` — in either variant — contradicting the claim that horizontal
acceleration is applied consistently with the vertical update. -/
theorem C5_accelerationX_never_applied :
    (integrateFalling particleC5).x = particleC5.x + particleC5.speedX ∧
    (integrateFalling particleC5).y = particleC5.y + particleC5.speedY ∧
    (integrateFalling particleC5).speedY
      = particleC5.speedY + particleC5.accelerationY ∧
    (integrateFalling particleC5).speedX = particleC5.speedX ∧
    ¬ (integrateFalling particleC5).speedX
        = particleC5.speedX + particleC5.accelerationX ∧
    (integrateCannon 0 false false 5 0 particleC5).speedY
      = particleC5.speedY + particleC5.accelerationY ∧
    (integrateCannon 0 false false 5 0 particleC5).speedX = particleC5.speedX ∧
    ¬ (integrateCannon 0 false false 5 0 particleC5).speedX
        = particleC5.speedX + particleC5.accelerationX := by
  norm_num [integrateFalling, integrateCannon, particleC5]

/-- Heap whose records are all fresh. -/
def storeC4 : Nat → Particle := fun _ => CreateEmptyParticle

/-- Component environment with both display toggles off. -/
def envC3 : CannonEnv := { preset := presetFx, showEmojis := false, showConfetti := false }

/-- C3 counterexample: with both display toggles off the Factory produces
a particle with no shape, no color and no emoji — "never neither,
regardless of the display flags" fails. -/
theorem C3_neither_visual_when_flags_off :
    ¬ visualOk (configureParticle 5 5 envC3 drawsFx) ∧
    (configureParticle 5 5 envC3 drawsFx).shape = none ∧
    (configureParticle 5 5 envC3 drawsFx).color = none ∧
    (configureParticle 5 5 envC3 drawsFx).emoji = none := by
  norm_num [visualOk, configureParticle, envC3, drawsFx, presetFx]

/-- C3 (amended): whenever confetti display is enabled (and the preset
palette is non-empty, with the random draws in `[0,1)` as `Math.random`
guarantees), every particle the Factory configures has exactly one active
visual representation — shape with color, or emoji, never both, never
neither — and no step of the simulation loop (integration in either
variant, or the rotation advance at draw time) mutates the visual-kind
fields.  When confetti display is disabled and emoji is not selected the
particle has neither visual. -/
theorem C3_visual_xor_when_confetti_enabled (bx cy : ℚ) (env : CannonEnv) (d : Draws)
    (hshow : env.showConfetti = true)
    (hcolors : env.preset.colors ≠ [])
    (hc0 : 0 ≤ d.colorRand) (hc1 : d.colorRand < 1)
    (he0 : 0 ≤ d.emojiPickRand) (he1 : d.emojiPickRand < 1) :
    visualOk (configureParticle bx cy env d) ∧
    ∀ (p : Particle) (a : ℚ) (rx ry : Bool) (ox oy : ℚ),
      (integrateCannon a rx ry ox oy p).shape = p.shape ∧
      (integrateCannon a rx ry ox oy p).color = p.color ∧
      (integrateCannon a rx ry ox oy p).emoji = p.emoji ∧
      (integrateFalling p).shape = p.shape ∧
      (integrateFalling p).color = p.color ∧
      (integrateFalling p).emoji = p.emoji ∧
      (drawAdvance p).shape = p.shape ∧
      (drawAdvance p).color = p.color ∧
      (drawAdvance p).emoji = p.emoji := by
  constructor
  · cases hb : (env.showEmojis && decide (d.emojiRand < env.preset.emojiChance)) with
    | true =>
        right
        have hlen : 0 < emojis.length := by decide
        have hidx := floor_index_lt d.emojiPickRand emojis.length he0 he1 hlen
        refine ⟨?_, ?_, ?_⟩
        · show (configureParticle bx cy env d).emoji ≠ none
          simp only [configureParticle, hb, if_true]
          rw [List.get?_eq_get hidx]
          simp
        · show (configureParticle bx cy env d).shape = none
          simp only [configureParticle, hb]
          simp
        · show (configureParticle bx cy env d).color = none
          simp only [configureParticle, hb]
          simp
    | false =>
        left
        have hlen : 0 < env.preset.colors.length := List.length_pos.mpr hcolors
        have hidx := floor_index_lt d.colorRand env.preset.colors.length hc0 hc1 hlen
        have hnc : (!env.showConfetti) = false := by rw [hshow]; rfl
        have hforb : ¬ ((false || !env.showConfetti) = true) := by simp [hnc]
        refine ⟨?_, ?_, ?_⟩
        · show (configureParticle bx cy env d).shape ≠ none
          simp only [configureParticle, hb, if_neg hforb]
          split <;> simp
        · show (configureParticle bx cy env d).color ≠ none
          simp only [configureParticle, hb, if_neg hforb]
          rw [List.get?_eq_get hidx]
          simp
        · show (configureParticle bx cy env d).emoji = none
          simp only [configureParticle, hb]
          simp
  · intro p a rx ry ox oy
    exact ⟨rfl, rfl, rfl, rfl, rfl, rfl, rfl, rfl, rfl⟩

/-- Witness for C3 (amended) at a concrete environment with confetti
display enabled. -/
theorem C3_visual_xor_witness :
    envFx.showConfetti = true ∧ envFx.preset.colors ≠ [] ∧
    (0:ℚ) ≤ drawsFx.colorRand ∧ drawsFx.colorRand < 1 ∧
    (0:ℚ) ≤ drawsFx.emojiPickRand ∧ drawsFx.emojiPickRand < 1 ∧
    visualOk (configureParticle 5 5 envFx drawsFx) := by
  have h := C3_visual_xor_when_confetti_enabled 5 5 envFx drawsFx rfl
    (by simp [envFx, presetFx])
    (by norm_num [drawsFx]) (by norm_num [drawsFx])
    (by norm_num [drawsFx]) (by norm_num [drawsFx])
  exact ⟨rfl, by simp [envFx, presetFx],
    by norm_num [drawsFx], by norm_num [drawsFx],
    by norm_num [drawsFx], by norm_num [drawsFx], h.1⟩

/-- C2: when `ConfettiCannon.createParticle` pops a fresh record and is
given a burst origin with both coordinates non-zero, it configures the
record and pushes it back, so the immediately following call pops that
same record, sees its non-zero position, and returns it unmodified
without re-pushing: the two calls return the same record identity, the
second call leaves the heap untouched, the pool is back to its original
size after the first call and one record smaller after the pair, and one
tick over the two aliased slots advances the shared record's lifetime
from 0 to 2. -/
theorem C2_aliased_pairs (env : CannonEnv) (d1 d2 : Draws) (bx cy : ℚ)
    (s : SysState) (pid : Nat) (rest : List Nat)
    (hpool : s.pool = pid :: rest)
    (hfresh : (s.store pid).x = 0 ∨ (s.store pid).y = 0)
    (hbx : bx ≠ 0) (hcy : cy ≠ 0) :
    (createParticleCannon bx cy env d1 s).1 = pid ∧
    (createParticleCannon bx cy env d2 (createParticleCannon bx cy env d1 s).2).1
      = pid ∧
    (createParticleCannon bx cy env d2 (createParticleCannon bx cy env d1 s).2).2.store
      = (createParticleCannon bx cy env d1 s).2.store ∧
    (createParticleCannon bx cy env d1 s).2.pool.length = s.pool.length ∧
    (createParticleCannon bx cy env d2
        (createParticleCannon bx cy env d1 s).2).2.pool.length + 1
      = s.pool.length ∧
    ((createParticleCannon bx cy env d2
        (createParticleCannon bx cy env d1 s).2).2.store pid).lifetime = 0 ∧
    ∀ m : Nat,
      ((runTickCannon m 0 false false 5 0
          (createParticleCannon bx cy env d2
            (createParticleCannon bx cy env d1 s).2).2.store
          [pid, pid]).store pid).lifetime = 2 := by
  have hc : ¬ ((s.store pid).x ≠ 0 ∧ (s.store pid).y ≠ 0) := by
    rcases hfresh with h | h
    · exact fun hcc => hcc.1 h
    · exact fun hcc => hcc.2 h
  have h1 : createParticleCannon bx cy env d1 s
      = (pid, { s with store := updStore s.store pid (configureParticle bx cy env d1)
                       pool := pid :: rest }) := by
    simp only [createParticleCannon, hpool, if_neg hc]
  have hx : (updStore s.store pid (configureParticle bx cy env d1) pid).x = bx := by
    rw [updStore_self, configureParticle_x]
  have hy : (updStore s.store pid (configureParticle bx cy env d1) pid).y = cy := by
    rw [updStore_self, configureParticle_y]
  have h2 : createParticleCannon bx cy env d2 (createParticleCannon bx cy env d1 s).2
      = (pid, { s with store := updStore s.store pid (configureParticle bx cy env d1)
                       pool := rest }) := by
    rw [h1]
    simp only [createParticleCannon]
    rw [if_pos ⟨by rw [hx]; exact hbx, by rw [hy]; exact hcy⟩]
  have hstore : ((createParticleCannon bx cy env d2
      (createParticleCannon bx cy env d1 s).2).2.store pid).lifetime = 0 := by
    rw [h2]
    show (updStore s.store pid (configureParticle bx cy env d1) pid).lifetime = 0
    rw [updStore_self, configureParticle_lifetime]
  refine ⟨by rw [h1], by rw [h2], by rw [h2, h1], by rw [h1, hpool],
    by rw [h2, hpool]; rfl, hstore, ?_⟩
  intro m
  rw [runTickCannon_store_lifetime, hstore]
  simp [List.count_cons_self]

/-- Witness for C2 at a concrete fresh pool and burst origin. -/
theorem C2_aliased_pairs_witness :
    stateC1.pool = 0 :: [] ∧
    ((storeC4 0).x = 0 ∨ (storeC4 0).y = 0) ∧
    ((7:ℚ) ≠ 0) ∧ ((9:ℚ) ≠ 0) ∧
    (createParticleCannon 7 9 envFx drawsFx
      { stateC1 with store := storeC4 }).1 = 0 := by
  have h := C2_aliased_pairs envFx drawsFx drawsFx 7 9
    { stateC1 with store := storeC4 } 0 [] rfl
    (Or.inl (by norm_num [storeC4, CreateEmptyParticle]))
    (by norm_num) (by norm_num)
  exact ⟨rfl, Or.inl (by norm_num [storeC4, CreateEmptyParticle]),
    by norm_num, by norm_num, h.1⟩

/-- C4 counterexample: when the active array holds the same record in two
slots — which `ConfettiCannon`'s `createParticle` produces for every
anchor burst with non-zero origin — one tick advances that record's
lifetime by 2, not by exactly 1. -/
theorem C4_aliased_slot_double_increment :
    ((runTickCannon 3000 0 false false 5 0 storeC4 [0, 0]).store 0).lifetime = 2 ∧
    ¬ ((runTickCannon 3000 0 false false 5 0 storeC4 [0, 0]).store 0).lifetime
        = (storeC4 0).lifetime + 1 := by
  norm_num [runTickCannon, integrateCannon, storeC4, CreateEmptyParticle, updStore,
    drawAdvance]

/-- C4 (amended): on every tick of any active array, each record's
lifetime advances by exactly the number of slots referencing it (so a
record aliased by `k` slots advances by `k`, and every lifetime is
monotonically non-decreasing), and — also unconditionally — every snapshot
handed to `drawParticle` has `alpha = 1 - lifetime / maxLifetime > 0`;
when additionally the active array references no record twice, every
active record's lifetime increases by exactly 1 and a record is kept for
the next tick iff its incremented lifetime is below `maxLifetime`. -/
theorem C4_tick_increment_cull_alpha (m : Nat) (a : ℚ) (rx ry : Bool) (ox oy : ℚ)
    (st : Nat → Particle) (act : List Nat) :
    (∀ i : Nat,
        ((runTickCannon m a rx ry ox oy st act).store i).lifetime
          = (st i).lifetime + act.count i) ∧
    (∀ p ∈ (runTickCannon m a rx ry ox oy st act).draws,
        p.lifetime < m ∧ drawAlpha m p = 1 - (p.lifetime : ℚ) / (m : ℚ) ∧
          0 < drawAlpha m p) ∧
    (act.Nodup →
        (∀ i ∈ act,
            ((runTickCannon m a rx ry ox oy st act).store i).lifetime
              = (st i).lifetime + 1) ∧
        (∀ i, i ∈ (runTickCannon m a rx ry ox oy st act).alive ↔
            i ∈ act ∧ (st i).lifetime + 1 < m)) := by
  refine ⟨?_, ?_, ?_⟩
  · intro i
    exact runTickCannon_store_lifetime m a rx ry ox oy st act i
  · intro p hp
    have hlt := runTickCannon_draws_lt m a rx ry ox oy st act p hp
    refine ⟨hlt, rfl, ?_⟩
    have hm : 0 < m := by omega
    have hmq : (0:ℚ) < (m : ℚ) := by exact_mod_cast hm
    have hdiv : (p.lifetime : ℚ) / (m : ℚ) < 1 :=
      (div_lt_one hmq).mpr (by exact_mod_cast hlt)
    unfold drawAlpha
    linarith
  · intro hnd
    constructor
    · intro i hi
      rw [runTickCannon_store_lifetime, List.count_eq_one_of_mem hnd hi]
    · intro i
      exact runTickCannon_alive_iff m a rx ry ox oy st act hnd i

/-- Witness for C4 (amended): the count-based advance evaluated on the
aliased array `[0, 0]` (advance by 2), and the duplicate-free exactly-one
advance obtained by discharging the `Nodup` hypothesis on `[0, 1]`. -/
theorem C4_tick_increment_cull_alpha_witness :
    (((runTickCannon 3000 0 false false 5 0 storeC4 [0, 0]).store 0).lifetime
      = (storeC4 0).lifetime + List.count 0 [0, 0]) ∧
    ([0, 1] : List Nat).Nodup ∧
    ∀ i ∈ ([0, 1] : List Nat),
      ((runTickCannon 3000 0 false false 5 0 storeC4 [0, 1]).store i).lifetime
        = (storeC4 i).lifetime + 1 :=
  ⟨(C4_tick_increment_cull_alpha 3000 0 false false 5 0 storeC4 [0, 0]).1 0,
   by decide,
   ((C4_tick_increment_cull_alpha 3000 0 false false 5 0 storeC4 [0, 1]).2.2
      (by decide)).1⟩

/-- C8: two `getCachedEmoji` calls whose sizes bucket to the same rounded
size return the identical cached surface, with the second call leaving the
cache untouched (no rasterization); two calls whose sizes bucket
differently (starting from a cache holding neither key) rasterize two
distinct surfaces and leave two distinct cache entries.  The same holds
for `getCachedShape`. -/
theorem C8_cache_bucketing (e sh col : String) (s1 s2 s3 : ℚ) (inc : ℚ)
    (c : RenderCache)
    (hsame : roundToNearestSize s1 inc = roundToNearestSize s2 inc)
    (hdiff : roundToNearestSize s1 inc ≠ roundToNearestSize s3 inc)
    (hmissE1 : findEntry c.emojiEntries (e, roundToNearestSize s1 inc) = none)
    (hmissE3 : findEntry c.emojiEntries (e, roundToNearestSize s3 inc) = none)
    (hmissS1 : findEntry c.shapeEntries (sh, roundToNearestSize s1 inc, col) = none)
    (hmissS3 : findEntry c.shapeEntries (sh, roundToNearestSize s3 inc, col) = none) :
    (∀ c2 : RenderCache,
        getCachedEmoji e s2 inc true (getCachedEmoji e s1 inc true c2).2
          = getCachedEmoji e s1 inc true c2) ∧
    (∀ c2 : RenderCache,
        getCachedShape sh s2 col inc true (getCachedShape sh s1 col inc true c2).2
          = getCachedShape sh s1 col inc true c2) ∧
    ((getCachedEmoji e s1 inc true c).1 = some c.nextSurface ∧
     (getCachedEmoji e s3 inc true (getCachedEmoji e s1 inc true c).2).1
        = some (c.nextSurface + 1) ∧
     (getCachedEmoji e s1 inc true c).1
        ≠ (getCachedEmoji e s3 inc true (getCachedEmoji e s1 inc true c).2).1) ∧
    ((getCachedShape sh s1 col inc true c).1 = some c.nextSurface ∧
     (getCachedShape sh s3 col inc true (getCachedShape sh s1 col inc true c).2).1
        = some (c.nextSurface + 1) ∧
     (getCachedShape sh s1 col inc true c).1
        ≠ (getCachedShape sh s3 col inc true (getCachedShape sh s1 col inc true c).2).1) := by
  have hkeyE : ((e, roundToNearestSize s3 inc) : String × ℚ)
      ≠ (e, roundToNearestSize s1 inc) := by
    intro hk
    exact hdiff (congrArg Prod.snd hk).symm
  have hkeyS : ((sh, roundToNearestSize s3 inc, col) : String × ℚ × String)
      ≠ (sh, roundToNearestSize s1 inc, col) := by
    intro hk
    exact hdiff (congrArg (fun q => q.2.1) hk).symm
  refine ⟨?_, ?_, ?_, ?_⟩
  · intro c2
    unfold getCachedEmoji
    rw [← hsame]
    cases hfound : findEntry c2.emojiEntries (e, roundToNearestSize s1 inc) with
    | some sid => simp [hfound]
    | none => simp [hfound, findEntry]
  · intro c2
    unfold getCachedShape
    rw [← hsame]
    cases hfound : findEntry c2.shapeEntries (sh, roundToNearestSize s1 inc, col) with
    | some sid => simp [hfound]
    | none => simp [hfound, findEntry]
  · unfold getCachedEmoji
    simp only [hmissE1, if_neg]
    simp only [Bool.true_eq_false, if_false, findEntry, hmissE3, if_neg hkeyE]
    simp
  · unfold getCachedShape
    simp only [hmissS1, if_neg]
    simp only [Bool.true_eq_false, if_false, findEntry, hmissS3, if_neg hkeyS]
    simp

/-- Witness for C8: sizes 12 and 8 bucket to 10 with the default increment
of 10, size 17 buckets to 20, starting from the empty cache. -/
theorem C8_cache_bucketing_witness :
    roundToNearestSize 12 10 = roundToNearestSize 8 10 ∧
    roundToNearestSize 12 10 ≠ roundToNearestSize 17 10 ∧
    (getCachedEmoji "🎉" 12 10 true ⟨[], [], 0⟩).1 = some 0 := by
  have h := C8_cache_bucketing "🎉" "circle" "#ff0000" 12 8 17 10 ⟨[], [], 0⟩
    (by norm_num [roundToNearestSize, round_eq])
    (by norm_num [roundToNearestSize, round_eq])
    rfl rfl rfl rfl
  exact ⟨by norm_num [roundToNearestSize, round_eq],
    by norm_num [roundToNearestSize, round_eq], h.2.2.1.1⟩

/-- A pending timer re-armed on every chained call fires exactly once, at
the last call time plus the delay. -/
theorem runDebounce_pending_chain (delay : Nat) :
    ∀ (rest : List Nat) (t : Nat),
      List.Chain (fun a b => a ≤ b ∧ b < a + delay) t rest →
      runDebounce delay (some (t + delay)) rest
        = [(t :: rest).getLast (List.cons_ne_nil t rest) + delay] := by
  intro rest
  induction rest with
  | nil => intro t _; rfl
  | cons u rs ih =>
      intro t hch
      rcases hch with _ | ⟨⟨hle, hlt⟩, hch'⟩
      have hnf : ¬ (t + delay ≤ u) := by omega
      simp only [runDebounce, if_neg hnf, List.nil_append]
      rw [ih u hch', List.getLast_cons (List.cons_ne_nil u rs)]

/-- Along a chain of calls each within the debounce window, every call
time is bounded by the last one. -/
theorem chain_le_getLast (delay : Nat) :
    ∀ (rest : List Nat) (t : Nat),
      List.Chain (fun a b => a ≤ b ∧ b < a + delay) t rest →
      ∀ c ∈ t :: rest, c ≤ (t :: rest).getLast (List.cons_ne_nil t rest) := by
  intro rest
  induction rest with
  | nil =>
      intro t _ c hc
      rcases List.mem_singleton.mp hc with rfl
      rfl
  | cons u rs ih =>
      intro t hch c hc
      rcases hch with _ | ⟨⟨hle, hlt⟩, hch'⟩
      rw [List.getLast_cons (List.cons_ne_nil u rs)]
      rcases List.mem_cons.mp hc with rfl | hc'
      · exact le_trans hle (ih u hch' u (List.mem_cons_self u rs))
      · exact ih u hch' c hc'

/-- C10: when `N ≥ 1` invocations of the debounced closure occur at
non-decreasing times each within the debounce delay of their predecessor,
the wrapped function runs exactly once, at the last invocation time plus
the full delay; with a positive delay that run is strictly after every
invocation (never synchronous). -/
theorem C10_debounce_coalesces (delay : Nat) (t : Nat) (rest : List Nat)
    (hch : List.Chain (fun a b => a ≤ b ∧ b < a + delay) t rest) :
    runDebounce delay none (t :: rest)
      = [(t :: rest).getLast (List.cons_ne_nil t rest) + delay] ∧
    (runDebounce delay none (t :: rest)).length = 1 ∧
    (0 < delay → ∀ c ∈ t :: rest,
      c < (t :: rest).getLast (List.cons_ne_nil t rest) + delay) := by
  have hrun : runDebounce delay none (t :: rest)
      = [(t :: rest).getLast (List.cons_ne_nil t rest) + delay] := by
    show runDebounce delay (some (t + delay)) rest = _
    exact runDebounce_pending_chain delay rest t hch
  refine ⟨hrun, by rw [hrun]; rfl, ?_⟩
  intro hd c hc
  have := chain_le_getLast delay rest t hch c hc
  omega

/-- Witness for C10: three calls at 0, 50 and 120 with delay 100 coalesce
into one run at 220. -/
theorem C10_debounce_coalesces_witness :
    List.Chain (fun a b => a ≤ b ∧ b < a + 100) 0 [50, 120] ∧
    runDebounce 100 none [0, 50, 120] = [220] := by
  have hch : List.Chain (fun a b => a ≤ b ∧ b < a + 100) 0 [50, 120] :=
    List.Chain.cons (by omega) (List.Chain.cons (by omega) List.Chain.nil)
  have h := C10_debounce_coalesces 100 0 [50, 120] hch
  exact ⟨hch, by rw [h.1]; rfl⟩

/-- Field-level description of `stopConfetti`: it nulls any truthy
handles, empties the active array, clears the surface when the canvas and
context are available, and touches nothing else (heap, pool, allocator). -/
theorem stopConfetti_eq (hc hx : Bool) (s : SysState) :
    stopConfetti hc hx s =
      { store := s.store
        pool := s.pool
        nextId := s.nextId
        particles := []
        animationId := if jsTruthy s.animationId then none else s.animationId
        timeoutId := if jsTruthy s.timeoutId then none else s.timeoutId
        surfaceDirty := if hc && hx then false else s.surfaceDirty } := by
  by_cases h1 : jsTruthy s.animationId <;> by_cases h2 : jsTruthy s.timeoutId <;>
    by_cases h3 : (hc && hx) = true <;>
      simp [stopConfetti, h1, h2, h3]

/-- Cancelling an already-cancelled (or untruthy) handle is a no-op. -/
theorem stop_handle_idem (o : Option Nat) :
    (if jsTruthy (if jsTruthy o then none else o) then none
     else (if jsTruthy o then none else o)) = (if jsTruthy o then none else o) := by
  cases o with
  | none => rfl
  | some n => by_cases hn : n = 0 <;> simp [jsTruthy, hn]

/-- Stopping an already-stopped loop changes nothing. -/
theorem stopConfetti_idem (hc hx : Bool) (s : SysState) :
    stopConfetti hc hx (stopConfetti hc hx s) = stopConfetti hc hx s := by
  rw [stopConfetti_eq hc hx s, stopConfetti_eq]
  simp only [SysState.mk.injEq]
  refine ⟨trivial, trivial, trivial, trivial, ?_, ?_, ?_⟩
  · exact stop_handle_idem s.animationId
  · exact stop_handle_idem s.timeoutId
  · by_cases h3 : (hc && hx) = true <;> simp [h3]

/-- `initializeParticles` begins by stopping the previous burst, so a
redundant preceding stop is absorbed. -/
theorem initializeParticles_stop (env : CannonEnv) (anchors : List (Option Anchor))
    (ds : Nat → Draws) (fb : Nat → ℚ) (sx sy : ℚ) (hc hx : Bool) (s : SysState) :
    initializeParticles env anchors ds fb sx sy hc hx (stopConfetti hc hx s)
      = initializeParticles env anchors ds fb sx sy hc hx s := by
  simp only [initializeParticles, stopConfetti_idem]

/-- A non-zero (hence truthy, as every real host handle is) pending handle
is nulled by the cancel-and-clear step. -/
theorem stop_handle_none (o : Option Nat) (h : o ≠ some 0) :
    (if jsTruthy o then none else o) = none := by
  cases o with
  | none => rfl
  | some n =>
      have hn : n ≠ 0 := fun hzero => h (by rw [hzero])
      simp [jsTruthy, hn]

/-- C9: `stopConfetti` cancels the pending animation frame and safety
timer (leaving both handles null, given that host handles are non-zero),
empties the active particle set, and clears the surface when the canvas
and its context are present; stopping twice equals stopping once; and a
new burst first forces a stop of the previous burst, so initializing on a
stopped controller equals initializing directly — at most one burst is
ever active. -/
theorem C9_stop_idempotent_complete (hc hx : Bool) (s : SysState)
    (hA : s.animationId ≠ some 0) (hT : s.timeoutId ≠ some 0) :
    (stopConfetti hc hx s).animationId = none ∧
    (stopConfetti hc hx s).timeoutId = none ∧
    (stopConfetti hc hx s).particles = [] ∧
    (hc = true → hx = true → (stopConfetti hc hx s).surfaceDirty = false) ∧
    (∀ s' : SysState, stopConfetti hc hx (stopConfetti hc hx s') = stopConfetti hc hx s') ∧
    (∀ (env : CannonEnv) (anchors : List (Option Anchor)) (ds : Nat → Draws)
       (fb : Nat → ℚ) (sx sy : ℚ) (s' : SysState),
        initializeParticles env anchors ds fb sx sy hc hx (stopConfetti hc hx s')
          = initializeParticles env anchors ds fb sx sy hc hx s') := by
  refine ⟨?_, ?_, ?_, ?_, ?_, ?_⟩
  · rw [stopConfetti_eq]
    exact stop_handle_none s.animationId hA
  · rw [stopConfetti_eq]
    exact stop_handle_none s.timeoutId hT
  · rw [stopConfetti_eq]
  · intro h1 h2
    rw [stopConfetti_eq]
    simp [h1, h2]
  · intro s'
    exact stopConfetti_idem hc hx s'
  · intro env anchors ds fb sx sy s'
    exact initializeParticles_stop env anchors ds fb sx sy hc hx s'

/-- Concrete running controller used to witness C9. -/
def stateC9 : SysState :=
  { store := storeC4
    pool := []
    nextId := 0
    particles := [some 0]
    animationId := some 3
    timeoutId := some 4
    surfaceDirty := true }

/-- Witness for C9 at a concrete running controller state. -/
theorem C9_stop_idempotent_complete_witness :
    stateC9.animationId ≠ some 0 ∧ stateC9.timeoutId ≠ some 0 ∧
    (stopConfetti true true stateC9).animationId = none ∧
    (stopConfetti true true stateC9).particles = [] := by
  have h := C9_stop_idempotent_complete true true stateC9
    (by simp [stateC9]) (by simp [stateC9])
  exact ⟨by simp [stateC9], by simp [stateC9], h.1, h.2.2.1⟩

/-- Every record sitting in the pool is unexpired (lifetime 0).  This
holds for a freshly mounted component (empty or pre-filled pool) and is
preserved by the burst path, because `createParticle` writes only
fully-configured records (lifetime 0) back into the pool. -/
def poolLife (s : SysState) : Prop :=
  ∀ i ∈ s.pool, (s.store i).lifetime = 0

theorem createParticleCannon_store_or (bx cy : ℚ) (env : CannonEnv) (d : Draws)
    (s : SysState) (j : Nat) :
    ((createParticleCannon bx cy env d s).2.store j).lifetime = 0 ∨
    (createParticleCannon bx cy env d s).2.store j = s.store j := by
  cases hp : s.pool with
  | nil =>
      simp only [createParticleCannon, hp]
      by_cases hj : j = s.nextId
      · subst hj
        left
        show ((updStore s.store s.nextId (configureParticle bx cy env d)) s.nextId).lifetime = 0
        rw [updStore_self, configureParticle_lifetime]
      · right
        show (updStore s.store s.nextId (configureParticle bx cy env d)) j = s.store j
        exact updStore_ne _ _ _ _ hj
  | cons pid rest =>
      simp only [createParticleCannon, hp]
      by_cases hcond : (s.store pid).x ≠ 0 ∧ (s.store pid).y ≠ 0
      · rw [if_pos hcond]
        right
        rfl
      · rw [if_neg hcond]
        by_cases hj : j = pid
        · subst hj
          left
          show ((updStore s.store j (configureParticle bx cy env d)) j).lifetime = 0
          rw [updStore_self, configureParticle_lifetime]
        · right
          show (updStore s.store pid (configureParticle bx cy env d)) j = s.store j
          exact updStore_ne _ _ _ _ hj

theorem createParticleCannon_fresh (bx cy : ℚ) (env : CannonEnv) (d : Draws)
    (s : SysState) (hq : poolLife s) :
    poolLife (createParticleCannon bx cy env d s).2 ∧
    ((createParticleCannon bx cy env d s).2.store
        (createParticleCannon bx cy env d s).1).lifetime = 0 := by
  cases hp : s.pool with
  | nil =>
      simp only [createParticleCannon, hp]
      constructor
      · intro i hi
        rcases List.mem_singleton.mp hi with rfl
        show ((updStore s.store s.nextId (configureParticle bx cy env d)) s.nextId).lifetime = 0
        rw [updStore_self, configureParticle_lifetime]
      · show ((updStore s.store s.nextId (configureParticle bx cy env d)) s.nextId).lifetime = 0
        rw [updStore_self, configureParticle_lifetime]
  | cons pid rest =>
      simp only [createParticleCannon, hp]
      by_cases hcond : (s.store pid).x ≠ 0 ∧ (s.store pid).y ≠ 0
      · rw [if_pos hcond]
        constructor
        · intro i hi
          exact hq i (by rw [hp]; exact List.mem_cons_of_mem _ hi)
        · exact hq pid (by rw [hp]; exact List.mem_cons_self _ _)
      · rw [if_neg hcond]
        constructor
        · intro i hi
          show ((updStore s.store pid (configureParticle bx cy env d)) i).lifetime = 0
          by_cases hip : i = pid
          · subst hip
            rw [updStore_self, configureParticle_lifetime]
          · rw [updStore_ne _ _ _ _ hip]
            rcases List.mem_cons.mp hi with hip' | hi'
            · exact absurd hip' hip
            · exact hq i (by rw [hp]; exact List.mem_cons_of_mem _ hi')
        · show ((updStore s.store pid (configureParticle bx cy env d)) pid).lifetime = 0
          rw [updStore_self, configureParticle_lifetime]

theorem spawnLoop_store_or (env : CannonEnv) (ds : Nat → Draws) (fb : Nat → ℚ)
    (bx cy w : ℚ) :
    ∀ (count idx : Nat) (s : SysState) (j : Nat),
      ((spawnLoop env ds fb bx cy w count idx s).1.store j).lifetime = 0 ∨
      (spawnLoop env ds fb bx cy w count idx s).1.store j = s.store j := by
  intro count
  induction count with
  | zero => intro idx s j; right; rfl
  | succ n ih =>
      intro idx s j
      rcases ih (idx + 1)
          (createParticleCannon (if bx ≠ 0 then bx else fb idx * w)
            (if cy ≠ 0 then cy else 0) env (ds idx) s).2 j with h | h
      · left; exact h
      · rcases createParticleCannon_store_or (if bx ≠ 0 then bx else fb idx * w)
            (if cy ≠ 0 then cy else 0) env (ds idx) s j with h2 | h2
        · left
          show ((spawnLoop env ds fb bx cy w n (idx + 1) _).1.store j).lifetime = 0
          rw [h, h2]
        · right
          show (spawnLoop env ds fb bx cy w n (idx + 1) _).1.store j = s.store j
          rw [h, h2]

theorem spawnLoop_fresh (env : CannonEnv) (ds : Nat → Draws) (fb : Nat → ℚ)
    (bx cy w : ℚ) :
    ∀ (count idx : Nat) (s : SysState), poolLife s →
      poolLife (spawnLoop env ds fb bx cy w count idx s).1 ∧
      (spawnLoop env ds fb bx cy w count idx s).2.1.length = count ∧
      ∀ i ∈ (spawnLoop env ds fb bx cy w count idx s).2.1,
        ((spawnLoop env ds fb bx cy w count idx s).1.store i).lifetime = 0 := by
  intro count
  induction count with
  | zero =>
      intro idx s hq
      exact ⟨hq, rfl, fun i hi => absurd hi (List.not_mem_nil i)⟩
  | succ n ih =>
      intro idx s hq
      obtain ⟨hq1, h0⟩ := createParticleCannon_fresh
        (if bx ≠ 0 then bx else fb idx * w) (if cy ≠ 0 then cy else 0)
        env (ds idx) s hq
      obtain ⟨hq2, hlen, hall⟩ := ih (idx + 1) _ hq1
      refine ⟨hq2, ?_, ?_⟩
      · show ((createParticleCannon _ _ env (ds idx) s).1
            :: (spawnLoop env ds fb bx cy w n (idx + 1) _).2.1).length = n + 1
        rw [List.length_cons, hlen]
      · intro i hi
        rcases List.mem_cons.mp hi with rfl | hi'
        · rcases spawnLoop_store_or env ds fb bx cy w n (idx + 1)
              (createParticleCannon (if bx ≠ 0 then bx else fb idx * w)
                (if cy ≠ 0 then cy else 0) env (ds idx) s).2
              (createParticleCannon (if bx ≠ 0 then bx else fb idx * w)
                (if cy ≠ 0 then cy else 0) env (ds idx) s).1 with h | h
          · exact h
          · show ((spawnLoop env ds fb bx cy w n (idx + 1) _).1.store _).lifetime = 0
            rw [h]
            exact h0
        · exact hall i hi'

theorem allocEmpty_fresh (s : SysState) (hq : poolLife s) : poolLife (allocEmpty s) := by
  intro i hi
  show ((updStore s.store s.nextId CreateEmptyParticle) i).lifetime = 0
  by_cases hin : i = s.nextId
  · subst hin
    rw [updStore_self]
    rfl
  · rw [updStore_ne _ _ _ _ hin]
    rcases List.mem_cons.mp hi with h | h
    · exact absurd h hin
    · exact hq i h

theorem growPoolAux_fresh :
    ∀ (fuel total : Nat) (s : SysState), poolLife s →
      poolLife (growPoolAux fuel total s) := by
  intro fuel
  induction fuel with
  | zero => intro total s hq; exact hq
  | succ n ih =>
      intro total s hq
      simp only [growPoolAux]
      by_cases hlt : s.pool.length < total
      · rw [if_pos hlt]
        exact ih total _ (allocEmpty_fresh s hq)
      · rw [if_neg hlt]
        exact hq

theorem stopConfetti_poolLife (hc hx : Bool) (s : SysState) (hq : poolLife s) :
    poolLife (stopConfetti hc hx s) := by
  rw [stopConfetti_eq]
  intro i hi
  exact hq i hi

/-- With canvas and context present and an empty active set, one
`animateConfetti` call draws nothing and transitions to STOPPED via
`stopConfetti` (no next frame is scheduled). -/
theorem animateConfetti_empty (m : Nat) (ang : ℚ) (rx ry : Bool) (ox oy : ℚ)
    (fid : Nat) (s : SysState) (hp : s.particles = []) :
    animateConfetti m ang rx ry ox oy true true fid s
      = .ok (stopConfetti true true
          { s with particles := [], surfaceDirty := false }) := by
  simp only [animateConfetti, hp, tickSlots]
  norm_num

/-- On a hole-free slot array the tick never raises, so `animateConfetti`
returns a successor state. -/
theorem animateConfetti_ok_of_map_some (m : Nat) (ang : ℚ) (rx ry : Bool)
    (ox oy : ℚ) (fid : Nat) (s : SysState) (ids : List Nat)
    (hp : s.particles = ids.map some) :
    ∃ s2 : SysState, animateConfetti m ang rx ry ox oy true true fid s = .ok s2 := by
  have htick := tickSlots_map_some m ang rx ry ox oy ids s.store
  simp only [animateConfetti, hp, htick]
  norm_num
  split
  · exact ⟨_, rfl⟩
  · exact ⟨_, rfl⟩

/-- The single-anchor spawn loop of `initializeParticles`: pool pre-grown
to `particleCount`, then `particleCount` `createParticle` calls at the
anchor's scroll-adjusted centre. -/
def burstLoop (env : CannonEnv) (ds : Nat → Draws) (fb : Nat → ℚ) (sx sy : ℚ)
    (a : Anchor) (s : SysState) : SysState × List Nat × Nat :=
  spawnLoop env ds fb (a.left + a.width / 2 + sx) (a.top + a.height / 2 + sy)
    a.width env.preset.particleCount 0
    (growPool (env.preset.particleCount * 1) (stopConfetti true true s))

/-- For one present anchor, `initializeParticles` fills every preallocated
slot (no holes), one per `createParticle` call, and every filled record is
unexpired. -/
theorem initializeParticles_single (env : CannonEnv) (a : Anchor) (ds : Nat → Draws)
    (fb : Nat → ℚ) (sx sy : ℚ) (s : SysState) (hq : poolLife s) :
    (initializeParticles env [some a] ds fb sx sy true true s).particles
      = ((burstLoop env ds fb sx sy a s).2.1).map some ∧
    ((burstLoop env ds fb sx sy a s).2.1).length = env.preset.particleCount ∧
    ∀ i ∈ (burstLoop env ds fb sx sy a s).2.1,
      ((initializeParticles env [some a] ds fb sx sy true true s).store i).lifetime
        = 0 := by
  obtain ⟨hq2, hlen, hall⟩ := spawnLoop_fresh env ds fb
    (a.left + a.width / 2 + sx) (a.top + a.height / 2 + sy) a.width
    env.preset.particleCount 0
    (growPool (env.preset.particleCount * 1) (stopConfetti true true s))
    (growPoolAux_fresh _ _ _ (stopConfetti_poolLife true true s hq))
  have hinit : (initializeParticles env [some a] ds fb sx sy true true s).particles
      = ((burstLoop env ds fb sx sy a s).2.1 ++ []).map some
        ++ List.replicate (env.preset.particleCount * 1
             - ((burstLoop env ds fb sx sy a s).2.1 ++ []).length) none := rfl
  refine ⟨?_, hlen, ?_⟩
  · rw [hinit, List.append_nil]
    have hz : env.preset.particleCount * 1
        - ((burstLoop env ds fb sx sy a s).2.1).length = 0 := by
      have : ((burstLoop env ds fb sx sy a s).2.1).length
          = env.preset.particleCount := hlen
      omega
    rw [hz, List.replicate_zero, List.append_nil]
  · intro i hi
    exact hall i hi

/-- C6: with `maxLifetime = 3000`, `particleCount = 20` and exactly one
present anchor, `initializeParticles` populates exactly 20 live
(lifetime-0) slots with no holes; from any state the active set is empty
after 3000 ticks; once the active set is empty the loop stops scheduling
(the animation-frame handle is cancelled) and clears the surface; and the
burst start arms the 10-second safety timeout. -/
theorem C6_burst_population_and_termination (env : CannonEnv) (a : Anchor)
    (ds : Nat → Draws) (fb : Nat → ℚ) (sx sy : ℚ) (frameId tid : Nat) (s : SysState)
    (hcount : env.preset.particleCount = 20)
    (hpool : poolLife s) :
    (∃ ids : List Nat,
        (initializeParticles env [some a] ds fb sx sy true true s).particles
          = ids.map some ∧
        ids.length = 20 ∧
        ∀ i ∈ ids,
          ((initializeParticles env [some a] ds fb sx sy true true s).store i).lifetime
            = 0) ∧
    (∀ (st : Nat → Particle) (ids : List Nat),
        (initializeParticles env [some a] ds fb sx sy true true s).particles
            = ids.map some →
        (runTickCannonN 3000 0 false false 5 0 3000 st ids).2 = []) ∧
    (∀ s' : SysState, s'.particles = [] → s'.animationId ≠ some 0 →
        s'.timeoutId ≠ some 0 →
        ∃ s'' : SysState,
          animateConfetti 3000 0 false false 5 0 true true frameId s' = .ok s'' ∧
          s''.animationId = none ∧ s''.particles = [] ∧ s''.surfaceDirty = false) ∧
    (∃ s2 : SysState,
        startCannonAtFindMe 3000 env [some a] ds fb sx sy true true frameId tid true s
          = .ok s2 ∧ s2.timeoutId = some tid) := by
  obtain ⟨hparts, hlen, hzero⟩ := initializeParticles_single env a ds fb sx sy s hpool
  refine ⟨⟨(burstLoop env ds fb sx sy a s).2.1, hparts, by rw [hlen, hcount], hzero⟩,
    ?_, ?_, ?_⟩
  · intro st ids _
    exact runTickCannonN_expiry 3000 0 false false 5 0 st ids (by norm_num)
  · intro s' hp hA hT
    refine ⟨_, animateConfetti_empty 3000 0 false false 5 0 frameId s' hp, ?_, ?_, ?_⟩
    · rw [stopConfetti_eq]
      exact stop_handle_none _ hA
    · rw [stopConfetti_eq]
    · rw [stopConfetti_eq]
      rfl
  · obtain ⟨s2, hs2⟩ := animateConfetti_ok_of_map_some 3000 0 false false 5 0 frameId
      (initializeParticles env [some a] ds fb sx sy true true s)
      (burstLoop env ds fb sx sy a s).2.1 hparts
    refine ⟨{ s2 with timeoutId := some tid }, ?_, rfl⟩
    simp only [startCannonAtFindMe, hs2]
    norm_num

/-- A freshly mounted component: empty heap, empty pool, nothing pending. -/
def initState : SysState :=
  { store := storeC4
    pool := []
    nextId := 0
    particles := []
    animationId := none
    timeoutId := none
    surfaceDirty := false }

/-- Concrete on-screen anchor rectangle. -/
def anchorFx : Anchor := { left := 30, top := 40, width := 4, height := 2 }

/-- Witness for C6 at a concrete fresh component, anchor and preset. -/
theorem C6_burst_population_and_termination_witness :
    envFx.preset.particleCount = 20 ∧
    poolLife initState ∧
    ∃ ids : List Nat,
      (initializeParticles envFx [some anchorFx] (fun _ => drawsFx) (fun _ => 1/2)
        0 0 true true initState).particles = ids.map some ∧ ids.length = 20 := by
  have h := C6_burst_population_and_termination envFx anchorFx (fun _ => drawsFx)
    (fun _ => 1/2) 0 0 1 2 initState rfl
    (by intro i hi; simp [initState] at hi)
  obtain ⟨⟨ids, h1, h2, _⟩, _, _, _⟩ := h
  exact ⟨rfl, by intro i hi; simp [initState] at hi, ids, h1, h2⟩

/-- Preset with two particles, enough to expose the hole behavior. -/
def presetC7 : Preset := { presetFx with particleCount := 2 }

/-- Environment selecting `presetC7`. -/
def envC7 : CannonEnv := { preset := presetC7, showEmojis := true, showConfetti := true }

/-- C7: `initializeParticles` preallocates
`particleCount * (spawnerIds.length || 1)` slots but fills only those of
present anchors, so a missing anchor — or an empty anchor list — leaves
`undefined` holes in the active array, and the next `animateConfetti`
tick dereferences a hole and throws a `TypeError` instead of skipping the
anchor and degrading gracefully: the burst path does raise. -/
theorem C7_missing_anchor_tick_throws :
    (initializeParticles envC7 [none] (fun _ => drawsFx) (fun _ => 1/2) 0 0 true true
        initState).particles = [none, none] ∧
    animateConfetti 3000 0 false false 5 0 true true 1
        (initializeParticles envC7 [none] (fun _ => drawsFx) (fun _ => 1/2) 0 0 true true
          initState) = .error () ∧
    (initializeParticles envC7 [] (fun _ => drawsFx) (fun _ => 1/2) 0 0 true true
        initState).particles = [none, none] ∧
    animateConfetti 3000 0 false false 5 0 true true 1
        (initializeParticles envC7 [] (fun _ => drawsFx) (fun _ => 1/2) 0 0 true true
          initState) = .error () ∧
    startCannonAtFindMe 3000 envC7 [none] (fun _ => drawsFx) (fun _ => 1/2) 0 0 true true
        1 2 true initState = .error () :=
  ⟨rfl, rfl, rfl, rfl, rfl⟩
